import Mathlib

/-!
Shallow embedding of `src/mindcv/utils/callbacks.py` (MindSpore training
callbacks: `StateMonitor` and `ValCallback`).

Modelling conventions:
* Metric values, tensor entries and parameter values are rationals (`ℚ`).
* Epoch counters are integers (`Int`), mirroring Python ints; Python's `%`
  on a positive (or, generally, nonzero) modulus agrees with `Int.emod`
  on the `= 0` test, which is the only way the code uses it.
* External framework objects (`model.eval`, the optimizer, the summary
  record) are opaque: their observable inputs appear as fields of
  `CbParams` and their invocations appear as fields of `EpochEffects`.
* File writes are modelled as `Option` events carrying the target path.
-/

/-- `os.path.join` for the cases exercised by the code: an absolute second
component replaces the first, otherwise the components are joined with a
single `/`. -/
def pathJoin (a b : String) : String :=
  if b.startsWith "/" then b
  else if a = "" then b
  else if a.endsWith "/" then a ++ b
  else a ++ "/" ++ b

/-- The constructor arguments of `StateMonitor` that the epoch-end logic
reads, after the normalisation done in `__init__` (lines 52–101):
`rank_id` has already been replaced by `0` when it was `None`, and
`device_num` by `1` (see `initDist` below for that normalisation itself). -/
structure MonitorCfg where
  datasetVal : Bool          -- `dataset_val is not None`
  valInterval : Int
  valStartEpoch : Int
  saveBestCkpt : Bool
  metricName : List String
  rankId : Nat
  deviceNum : Nat
  modelName : String
  ckptDir : String
  bestCkptName : String
  ckptSaveInterval : Int
  lastEpoch : Int
  keepCheckpointMax : Nat
deriving Repr, DecidableEq

/-- The mutable best-tracking state of `StateMonitor`
(`self.best_res`, `self.best_epoch`). -/
structure Monitor where
  bestRes : ℚ
  bestEpoch : Int
deriving Repr, DecidableEq

/-- `__init__` lines 57 and 67: `best_res = 0`, `best_epoch = -1`. -/
def initMonitor : Monitor := { bestRes := 0, bestEpoch := -1 }

/-- One `on_train_epoch_end` invocation's inputs: the callback parameters
plus the values returned by the opaque external calls made inside the body
(`model.eval` results keyed by metric name, and the metric vectors the
other devices contribute to the all-reduce). -/
structure CbParams where
  curEpochNum : Int          -- `cb_params.cur_epoch_num`
  batchNum : Nat             -- `cb_params.batch_num`
  epochNum : Int             -- `cb_params.epoch_num`
  evalLocal : String → ℚ     -- `mind_res[name]` from `self.model.eval`
  otherRes : List (List ℚ)   -- the other devices' `res` vectors (all-reduce peers)

/-- The externally visible effects of one `on_train_epoch_end` call. -/
structure EpochEffects where
  ranValidation : Bool                 -- whether `apply_eval` was invoked
  res : List ℚ                         -- the recorded metric vector `res`
  savedBest : Option String            -- best-checkpoint write (path), line 209
  savedOptim : Option String           -- optimizer-state write (path), line 225
  savedCkpt : Option (String × Nat × ℚ)  -- manager call: (save_path, num_ckpt, metric), lines 231–236

/-- Line 179: `cur_epoch = cb_params.cur_epoch_num + self.last_epoch`. -/
def curEpochOf (cfg : MonitorCfg) (p : CbParams) : Int :=
  p.curEpochNum + cfg.lastEpoch

/-- Lines 187–188: validation runs when `dataset_val` is present,
`cur_epoch >= val_start_epoch`, and
`(cur_epoch - val_start_epoch) % val_interval == 0`. -/
def runValB (cfg : MonitorCfg) (p : CbParams) : Bool :=
  cfg.datasetVal && decide (cfg.valStartEpoch ≤ curEpochOf cfg p)
    && decide ((curEpochOf cfg p - cfg.valStartEpoch) % cfg.valInterval = 0)

/-- Lines 191–192: `res[i] = mind_res[self.metric_name[i]] * 100`. -/
def localRes (cfg : MonitorCfg) (p : CbParams) : List ℚ :=
  cfg.metricName.map fun n => p.evalLocal n * 100

/-- Lines 194–196: when `device_num > 1`, `res = all_reduce(res); res /= device_num`.
The all-reduce (from `reduce_manager.AllReduceSum`, not under `src/`) is the
element-wise sum of this device's vector with the peers' vectors. -/
def reducedRes (cfg : MonitorCfg) (p : CbParams) : List ℚ :=
  if 1 < cfg.deviceNum then
    (p.otherRes.foldl (List.zipWith (· + ·)) (localRes cfg p)).map
      fun x => x / (cfg.deviceNum : ℚ)
  else localRes cfg p

/-- Line 186 and the validation branch: `res` starts as
`np.zeros(len(metric_name))` and is overwritten only when validation runs. -/
def resOf (cfg : MonitorCfg) (p : CbParams) : List ℚ :=
  if runValB cfg p then reducedRes cfg p else List.replicate cfg.metricName.length 0

/-- `res[0]`, the value compared against `best_res` (line 205). -/
def res0Of (cfg : MonitorCfg) (p : CbParams) : ℚ :=
  (resOf cfg p).getD 0 0

/-- Line 205 together with its enclosing guards (lines 187–188, 198):
the best-result update fires when validation ran, this is rank 0
(`self.rank_id in [0, None]`, with `rank_id` already normalised to `0`),
and `res[0] > self.best_res`. -/
def isBestB (cfg : MonitorCfg) (st : Monitor) (p : CbParams) : Bool :=
  runValB cfg p && decide (cfg.rankId = 0) && decide (st.bestRes < res0Of cfg p)

/-- Lines 206–207: `best_res = res[0]; best_epoch = cur_epoch` on improvement. -/
def stepMonitor (cfg : MonitorCfg) (st : Monitor) (p : CbParams) : Monitor :=
  if isBestB cfg st p then { bestRes := res0Of cfg p, bestEpoch := curEpochOf cfg p }
  else st

/-- Lines 208–209: the best checkpoint is written to `self.best_ckpt_path`
(`= os.path.join(ckpt_dir, best_ckpt_name)`, line 90) when the improvement
fired and `save_best_ckpt and (rank_id == 0)`. -/
def savedBestOf (cfg : MonitorCfg) (st : Monitor) (p : CbParams) : Option String :=
  if isBestB cfg st p && cfg.saveBestCkpt && decide (cfg.rankId = 0) then
    some (pathJoin cfg.ckptDir cfg.bestCkptName)
  else none

/-- Lines 218–219: the periodic checkpoint block runs on rank 0 when
`cur_epoch % ckpt_save_interval == 0` or `cur_epoch == cb_params.epoch_num`. -/
def doSaveB (cfg : MonitorCfg) (p : CbParams) : Bool :=
  decide (cfg.rankId = 0) &&
    (decide (curEpochOf cfg p % cfg.ckptSaveInterval = 0) || decide (curEpochOf cfg p = p.epochNum))

/-- Lines 224–225: `optim_save_path = os.path.join(ckpt_dir, f"optim_{model_name}.ckpt")`. -/
def savedOptimOf (cfg : MonitorCfg) (p : CbParams) : Option String :=
  if doSaveB cfg p then some (pathJoin cfg.ckptDir ("optim_" ++ cfg.modelName ++ ".ckpt"))
  else none

/-- Lines 227–236: the numbered checkpoint file name is
`model_name + "-" + str(cur_epoch) + "_" + str(cur_step_in_epoch) + ".ckpt"`
with `cur_step_in_epoch = cb_params.batch_num` (line 180), and the manager is
called with `num_ckpt=self.keep_checkpoint_max, metric=res[0]`. -/
def savedCkptOf (cfg : MonitorCfg) (p : CbParams) : Option (String × Nat × ℚ) :=
  if doSaveB cfg p then
    some (pathJoin cfg.ckptDir
            (cfg.modelName ++ "-" ++ toString (curEpochOf cfg p) ++ "_"
              ++ toString p.batchNum ++ ".ckpt"),
          cfg.keepCheckpointMax, res0Of cfg p)
  else none

/-- `StateMonitor.on_train_epoch_end` (lines 164–254), restricted to the
state it mutates and the effects it emits. -/
def on_train_epoch_end (cfg : MonitorCfg) (st : Monitor) (p : CbParams) :
    Monitor × EpochEffects :=
  (stepMonitor cfg st p,
   { ranValidation := runValB cfg p
     res := resOf cfg p
     savedBest := savedBestOf cfg st p
     savedOptim := savedOptimOf cfg p
     savedCkpt := savedCkptOf cfg p })

/-- Iterating `on_train_epoch_end` over a list of epoch inputs. -/
def runEpochs (cfg : MonitorCfg) (st : Monitor) (ps : List CbParams) : Monitor :=
  ps.foldl (fun s p => (on_train_epoch_end cfg s p).1) st

/-- Modelled from the spec: the repository's `CheckpointManager`
(`utils/checkpoint_manager.py`, not under `src/`) implements the
"best/top-k checkpoint retention algorithm": its `save_ckpoint` appends the
new checkpoint and, per the call-site comment "keep checkpoint files number
equal max number", retains at most `num_ckpt` files, dropping the oldest. -/
def managerSaveCkpt (filelist : List String) (numCkpt : Nat) (savePath : String) :
    List String :=
  let fl := filelist ++ [savePath]
  if numCkpt < fl.length then fl.drop (fl.length - numCkpt) else fl

/-! ### EMA parameter swap (`apply_eval`, lines 110–130) -/

/-- A parameter collection: (name, value) pairs, names distinct by
construction in the framework. -/
abbrev ParamList := List (String × ℚ)

/-- Name lookup in a parameter dict. -/
def lookupParam (d : ParamList) (n : String) : Option ℚ :=
  (d.find? fun q => q.1 = n).map Prod.snd

/-- `mindspore.load_param_into_net`: every network parameter whose name
appears in the dict receives the dict's value; the rest are untouched. -/
def load_param_into_net (net : ParamList) (d : ParamList) : ParamList :=
  net.map fun q =>
    match lookupParam d q.1 with
    | some v => (q.1, v)
    | none => q

/-- The characters following the first occurrence of the (non-empty)
separator `sep` in `l`, `none` when `sep` does not occur: the scanning
step of CPython's `str.split`. -/
def splitTailAfter (sep : List Char) : List Char → Option (List Char)
  | [] => if sep = [] then some [] else none
  | c :: rest =>
      if sep.isPrefixOf (c :: rest) then some (List.drop sep.length (c :: rest))
      else splitTailAfter sep rest

/-- The characters of `l` up to (excluding) the next occurrence of `sep`:
the extent of the `str.split` field that starts at `l`. -/
def takeBeforeSep (sep : List Char) : List Char → List Char
  | [] => []
  | c :: rest =>
      if sep.isPrefixOf (c :: rest) then [] else c :: takeBeforeSep sep rest

/-- `name.split("ema.")[1]` (CPython `str.split` with a non-overlapping
separator): the field between the first and second occurrences of
`"ema."`; `none` — an `IndexError` — when `"ema."` does not occur in
`name`, since the split then has a single field. -/
def emaKey (name : String) : Option String :=
  (splitTailAfter "ema.".toList name.toList).map fun tail =>
    String.mk (takeBeforeSep "ema.".toList tail)

/-- Lines 115–123: collect `param.data` for every parameter whose name
starts with `"ema"` (`str.startswith`, a character-prefix test), keyed by
`param.name.split("ema.")[1]`.  A qualifying name in which `"ema."` does
not occur (e.g. `"emanet.weight"`) makes the `[1]` index raise
`IndexError`, which aborts the loop at that parameter. -/
def emaDict : ParamList → Except String ParamList
  | [] => .ok []
  | q :: net =>
      if "ema".toList.isPrefixOf q.1.toList then
        match emaKey q.1 with
        | none => .error "IndexError"
        | some newName =>
            match emaDict net with
            | .ok d => .ok ((newName, q.2) :: d)
            | .error e => .error e
      else emaDict net

/-- The parameter state `apply_eval` manipulates: the live network
parameters (`self.online_params`, line 100) and the swap buffer
(`self.swap_params`, line 101). -/
structure EmaMonitor where
  online : ParamList
  swap : ParamList
deriving Repr, DecidableEq

/-- `StateMonitor.apply_eval` (lines 110–130).  With `ema=True`:
`map(assign, swap, online)` copies the online parameters into the swap
buffer; the `ema.`-prefixed parameters are collected (possibly raising
`IndexError`, which escapes the call) and loaded into the network, which
`model.eval` then runs with (the second component of the result);
`map(assign, online, swap)` restores the online parameters.  With
`ema=False` the network is evaluated as-is. -/
def apply_eval (ema : Bool) (s : EmaMonitor) : Except String (EmaMonitor × ParamList) :=
  if ema then
    let swapBuf := s.online
    match emaDict s.online with
    | .error e => .error e
    | .ok d =>
        let evalNet := load_param_into_net s.online d
        .ok ({ online := swapBuf, swap := swapBuf }, evalNet)
  else .ok (s, s.online)

/-! ### Distributed initialisation (`__init__`, lines 60–61 and 92–93) -/

/-- The distribution-related fields `__init__` produces. -/
structure DistCfg where
  rankId : Nat
  deviceNum : Nat
  hasAllReduce : Bool
deriving Repr, DecidableEq

/-- Lines 60–61 and 92–93 of `__init__`:
`self.rank_id = rank_id if rank_id is not None else 0`,
`self.device_num = device_num if rank_id is not None else 1`, and
`if self.device_num > 1: self.all_reduce = AllReduceSum()`.
When `rank_id` is not `None` but `device_num` is `None`, the comparison
`None > 1` raises `TypeError`, modelled as `none`. -/
def initDist (rank_id : Option Nat) (device_num : Option Nat) : Option DistCfg :=
  match (if rank_id.isSome then device_num else some 1) with
  | none => none
  | some n =>
      some { rankId := rank_id.getD 0, deviceNum := n, hasAllReduce := decide (1 < n) }

/-! ### `ValCallback` (lines 312–321) -/

/-- `ValCallback.__init__`: the only state is `log_step_interval`. -/
structure ValCallbackState where
  logStepInterval : Nat
deriving Repr, DecidableEq

/-- `ValCallback.on_eval_step_end` (lines 317–321): prints
`f"{cur_step_num}/{batch_num}"` when `cur_step_num % log_step_interval == 0`;
returns the (unchanged) callback state and the printed lines. -/
def on_eval_step_end (c : ValCallbackState) (curStepNum batchNum : Nat) :
    ValCallbackState × List String :=
  (c,
   if curStepNum % c.logStepInterval = 0 then
     [toString curStepNum ++ "/" ++ toString batchNum]
   else [])

/-! ### `_get_loss` (lines 263–293) -/

/-- The Python values `cb_params.net_outputs` can take, as far as
`_get_loss`'s `isinstance` dispatch distinguishes them.  `pyother` stands
for any value of a type other than `None`/`int`/`float`/`Tensor`/
`list`/`tuple`. -/
inductive PyVal where
  | pynone
  | pyint (n : Int)
  | pyfloat (q : ℚ)
  | pytensor (data : List ℚ)
  | pylist (xs : List PyVal)
  | pytuple (xs : List PyVal)
  | pyother
deriving Repr

/-- `Tensor(x).asnumpy()` for the scalar-like values the training loop
produces as losses; on other values the `Tensor` constructor is not
modelled (the code would raise), hence `none`. -/
def toTensorData : PyVal → Option (List ℚ)
  | .pyint n => some [(n : ℚ)]
  | .pyfloat q => some [q]
  | .pytensor d => some d
  | _ => none

/-- `np.mean` over the flattened data. -/
def npMean (d : List ℚ) : ℚ := d.sum / (d.length : ℚ)

/-- The `loss` selected by lines 276–287: the output itself when it is an
`int`/`float`/`Tensor`, its first element when it is a non-empty
`list`/`tuple`, nothing otherwise. -/
def lossSelect : PyVal → Option PyVal
  | .pyint n => some (.pyint n)
  | .pyfloat q => some (.pyfloat q)
  | .pytensor d => some (.pytensor d)
  | .pylist (x :: _) => some x
  | .pytuple (x :: _) => some x
  | _ => none

/-- `StateMonitor._get_loss` (lines 263–293): `Except.ok none` models the
`return None` branches (output is `None`, an empty `list`/`tuple`, or an
unidentified type); `Except.error` models an exception escaping from
`Tensor(loss)`; otherwise the scalar mean `Tensor` is returned. -/
def get_loss (output : PyVal) : Except String (Option ℚ) :=
  match output with
  | .pynone => .ok none
  | _ =>
      match lossSelect output with
      | none => .ok none
      | some loss =>
          match toTensorData loss with
          | none => .error "TypeError"
          | some d => .ok (some (npMean d))

/-! ### Attribute environment of `StateMonitor` (for `remove_oldest_ckpoint_file`) -/

/-- Every attribute name assigned on `self` anywhere in `StateMonitor`'s
methods (`__init__` lines 52–101, `__enter__` line 104, and the updates in
`on_train_step_end` / `on_train_epoch_end` / `_flush_from_cache`, which
only reassign names already in this list). -/
def stateMonitorInstanceAttrs : List String :=
  ["model", "dataset_val", "val_start_epoch", "save_best_ckpt", "metric_name",
   "best_res", "val_interval", "summary_dir", "rank_id", "device_num",
   "log_interval", "model_name", "ckpt_dir", "ckpt_save_interval", "last_epoch",
   "best_epoch", "keep_checkpoint_max", "ckpt_save_policy", "_manager",
   "_need_flush_from_cache", "dataset_sink_mode", "log_txt_fp", "best_ckpt_path",
   "all_reduce", "start", "epoch_start", "map", "ema", "online_params",
   "swap_params", "summary_record"]

/-- The methods defined on the `StateMonitor` class itself. -/
def stateMonitorMethods : List String :=
  ["__init__", "__enter__", "__exit__", "apply_eval", "on_train_step_end",
   "on_train_epoch_end", "on_train_end", "_get_loss", "_flush_from_cache",
   "remove_oldest_ckpoint_file"]

/-- Python attribute lookup on a `StateMonitor` instance, over the
instance attributes and class methods above (the `mindspore` base
`Callback` class contributes only lifecycle hook methods, none named
below). -/
def stateMonitorHasAttr (name : String) : Bool :=
  name ∈ stateMonitorInstanceAttrs || name ∈ stateMonitorMethods

/-- `StateMonitor.remove_oldest_ckpoint_file` (lines 306–309): reads
`self._ckpoint_filelist` (line 308) and then calls
`self.remove_ckpoint_file` (line 309); a failed attribute lookup raises
`AttributeError`. -/
def remove_oldest_ckpoint_file : Except String Unit :=
  if !stateMonitorHasAttr "_ckpoint_filelist" then .error "AttributeError"
  else if !stateMonitorHasAttr "remove_ckpoint_file" then .error "AttributeError"
  else .ok ()

/-! ### Theorems -/

/-- The `IndexError` path of `apply_eval`: when some `"ema"`-prefixed
parameter name lacks `"ema."`, the exception escapes the call before the
EMA load happens (no normal exit). -/
lemma apply_eval_raises (s : EmaMonitor) (e : String)
    (h : emaDict s.online = .error e) : apply_eval true s = .error e := by
  simp [apply_eval, h]

/-- C1: with `ema=True`, on every call whose EMA-dict collection does not
raise (no `"ema"`-prefixed name lacking `"ema."`), `apply_eval` copies the
online parameters into the swap buffer, evaluates with the EMA parameters
loaded into the network, and restores the swap buffer afterwards, so the
online (train-network) parameters at exit equal their values at entry. -/
theorem C1_ema_swap_restore (s : EmaMonitor) (d : ParamList)
    (h : emaDict s.online = .ok d) :
    apply_eval true s =
      .ok ({ online := s.online, swap := s.online },
        load_param_into_net s.online d) := by
  simp [apply_eval, h]

/-- Witness for C1 at a concrete network with one EMA parameter. -/
theorem C1_ema_swap_restore_witness :
    emaDict ([("w", 1), ("ema.w", 5)] : ParamList) = .ok [("w", 5)] ∧
      apply_eval true ⟨[("w", 1), ("ema.w", 5)], [("w", 0), ("ema.w", 0)]⟩ =
        .ok ({ online := [("w", 1), ("ema.w", 5)], swap := [("w", 1), ("ema.w", 5)] },
          load_param_into_net [("w", 1), ("ema.w", 5)] [("w", 5)]) :=
  ⟨rfl,
   C1_ema_swap_restore ⟨[("w", 1), ("ema.w", 5)], [("w", 0), ("ema.w", 0)]⟩
     [("w", 5)] rfl⟩

/-- C7: `ValCallback.on_eval_step_end` prints the progress line
`"<cur_step_num>/<batch_num>"` exactly when `cur_step_num` is a multiple of
`log_step_interval`, and changes no callback state. -/
theorem C7_val_log_iff (c : ValCallbackState) (s b : Nat) (h : 0 < c.logStepInterval) :
    (on_eval_step_end c s b).1 = c ∧
      ((on_eval_step_end c s b).2 = [toString s ++ "/" ++ toString b] ↔
        c.logStepInterval ∣ s) ∧
      (¬ c.logStepInterval ∣ s → (on_eval_step_end c s b).2 = []) := by
  refine ⟨rfl, ?_, ?_⟩ <;> by_cases hm : s % c.logStepInterval = 0 <;>
    simp [on_eval_step_end, hm, Nat.dvd_iff_mod_eq_zero]

/-- Witness for C7 at a concrete interval and step. -/
theorem C7_val_log_iff_witness :
    0 < (ValCallbackState.mk 100).logStepInterval ∧
      ((on_eval_step_end ⟨100⟩ 200 7).1 = ⟨100⟩ ∧
        ((on_eval_step_end ⟨100⟩ 200 7).2 = [toString 200 ++ "/" ++ toString 7] ↔
          (100 : Nat) ∣ 200) ∧
        (¬ (100 : Nat) ∣ 200 → (on_eval_step_end ⟨100⟩ 200 7).2 = [])) :=
  ⟨by decide, C7_val_log_iff ⟨100⟩ 200 7 (by decide)⟩

/-- C8: constructing `StateMonitor` with `rank_id=None` forces
`self.device_num = 1` whatever `device_num` argument is passed, so the
all-reduce member is never constructed; the `device_num` argument takes
effect only when `rank_id` is not `None`. -/
theorem C8_rank_none_forces_single_device :
    (∀ d : Option Nat, initDist none d =
        some { rankId := 0, deviceNum := 1, hasAllReduce := false }) ∧
      (∀ r n : Nat, initDist (some r) (some n) =
        some { rankId := r, deviceNum := n, hasAllReduce := decide (1 < n) }) :=
  ⟨fun _ => rfl, fun _ _ => rfl⟩

/-- C9: `remove_oldest_ckpoint_file` always raises `AttributeError`:
neither `_ckpoint_filelist` nor `remove_ckpoint_file` is ever defined on
`StateMonitor`. -/
theorem C9_remove_oldest_raises :
    remove_oldest_ckpoint_file = Except.error "AttributeError" ∧
      stateMonitorHasAttr "_ckpoint_filelist" = false ∧
      stateMonitorHasAttr "remove_ckpoint_file" = false := by
  refine ⟨rfl, ?_, ?_⟩ <;> decide

lemma getD_replicate_zero (n : Nat) : (List.replicate n (0 : ℚ)).getD 0 0 = 0 := by
  cases n <;> simp [List.replicate, List.getD]

lemma res0_of_not_run (cfg : MonitorCfg) (p : CbParams) (h : runValB cfg p = false) :
    res0Of cfg p = 0 := by
  simp [res0Of, resOf, h, getD_replicate_zero]

lemma doSaveB_iff (cfg : MonitorCfg) (p : CbParams) :
    doSaveB cfg p = true ↔
      (cfg.rankId = 0 ∧
        (cfg.ckptSaveInterval ∣ curEpochOf cfg p ∨ curEpochOf cfg p = p.epochNum)) := by
  simp [doSaveB, ← Int.dvd_iff_emod_eq_zero]

/-- C3: the best checkpoint file is written, and written to
`best_ckpt_path = ckpt_dir/best_ckpt_name`, exactly when the current
`res[0]` strictly exceeds the previous `best_res`, `save_best_ckpt` holds,
and the rank is 0. -/
theorem C3_best_ckpt_write_iff (cfg : MonitorCfg) (st : Monitor) (p : CbParams)
    (hb : 0 ≤ st.bestRes) (hm : cfg.metricName ≠ []) :
    (((on_train_epoch_end cfg st p).2.savedBest).isSome = true ↔
      (st.bestRes < ((on_train_epoch_end cfg st p).2.res).getD 0 0 ∧
        cfg.saveBestCkpt = true ∧ cfg.rankId = 0)) ∧
    ∀ s, (on_train_epoch_end cfg st p).2.savedBest = some s →
      s = pathJoin cfg.ckptDir cfg.bestCkptName := by
  constructor
  · show (savedBestOf cfg st p).isSome = true ↔
      (st.bestRes < res0Of cfg p ∧ cfg.saveBestCkpt = true ∧ cfg.rankId = 0)
    by_cases hrv : runValB cfg p
    · simp only [savedBestOf, isBestB, hrv, Bool.true_and]
      by_cases hc : (decide (cfg.rankId = 0) && decide (st.bestRes < res0Of cfg p)
          && cfg.saveBestCkpt && decide (cfg.rankId = 0)) = true
      · simp only [hc, if_true, Option.isSome_some]
        simp only [Bool.and_eq_true, decide_eq_true_eq] at hc
        simp [hc.1.1.1, hc.1.1.2, hc.1.2]
      · simp only [hc, if_false, Option.isSome_none]
        simp only [Bool.and_eq_true, decide_eq_true_eq] at hc
        constructor
        · intro h; cases h
        · rintro ⟨h1, h2, h3⟩; exact absurd ⟨⟨⟨h3, h1⟩, h2⟩, h3⟩ hc
    · have hrv' : runValB cfg p = false := by simpa using hrv
      have h0 : res0Of cfg p = 0 := res0_of_not_run cfg p hrv'
      simp only [savedBestOf, isBestB, hrv', Bool.false_and, Bool.and_eq_true]
      simp only [Bool.false_eq_true, false_and, if_false, Option.isSome_none, h0]
      constructor
      · intro h; cases h
      · rintro ⟨h1, -, -⟩; exact absurd h1 (not_lt.mpr hb)
  · intro s hs
    have hs' : savedBestOf cfg st p = some s := hs
    unfold savedBestOf at hs'
    split at hs'
    · exact (Option.some.inj hs').symm
    · cases hs'

/-- C4: with a validation dataset present, `apply_eval` runs exactly when
`cur_epoch >= val_start_epoch` and `val_interval` divides
`cur_epoch - val_start_epoch`; without a dataset no validation runs; and
whenever validation does not run the recorded `res` is all zeros. -/
theorem C4_validation_schedule (cfg : MonitorCfg) (st : Monitor) (p : CbParams)
    (hv : cfg.valInterval ≠ 0) :
    (cfg.datasetVal = true →
      ((on_train_epoch_end cfg st p).2.ranValidation = true ↔
        (cfg.valStartEpoch ≤ curEpochOf cfg p ∧
          cfg.valInterval ∣ (curEpochOf cfg p - cfg.valStartEpoch)))) ∧
    (cfg.datasetVal = false → (on_train_epoch_end cfg st p).2.ranValidation = false) ∧
    ((on_train_epoch_end cfg st p).2.ranValidation = false →
      (on_train_epoch_end cfg st p).2.res = List.replicate cfg.metricName.length 0) := by
  refine ⟨?_, ?_, ?_⟩
  · intro hd
    show runValB cfg p = true ↔ _
    simp [runValB, hd, ← Int.dvd_iff_emod_eq_zero]
  · intro hd
    show runValB cfg p = false
    simp [runValB, hd]
  · intro hr
    have hr' : runValB cfg p = false := hr
    show resOf cfg p = _
    simp [resOf, hr']

lemma managerSaveCkpt_length_le (fl : List String) (k : Nat) (path : String) :
    (managerSaveCkpt fl k path).length ≤ k := by
  show (if k < (fl ++ [path]).length then
          List.drop ((fl ++ [path]).length - k) (fl ++ [path])
        else (fl ++ [path])).length ≤ k
  split
  · simp only [List.length_drop, List.length_append, List.length_cons, List.length_nil]
    omega
  · rename_i h
    simp only [List.length_append, List.length_cons, List.length_nil] at *
    omega

/-- C6: on rank 0, the numbered checkpoint
`model_name-<cur_epoch>_<batch_num>.ckpt` and the optimizer state
`optim_<model_name>.ckpt` are persisted exactly when `cur_epoch` is
divisible by `ckpt_save_interval` or is the final epoch; the manager is
invoked with `num_ckpt = keep_checkpoint_max`, and the modelled manager
retains at most `keep_checkpoint_max` files. -/
theorem C6_ckpt_save_policy (cfg : MonitorCfg) (st : Monitor) (p : CbParams)
    (hm : cfg.metricName ≠ []) (hi : cfg.ckptSaveInterval ≠ 0) :
    (((on_train_epoch_end cfg st p).2.savedCkpt).isSome = true ↔
      (cfg.rankId = 0 ∧
        (cfg.ckptSaveInterval ∣ curEpochOf cfg p ∨ curEpochOf cfg p = p.epochNum))) ∧
    (((on_train_epoch_end cfg st p).2.savedOptim).isSome = true ↔
      (cfg.rankId = 0 ∧
        (cfg.ckptSaveInterval ∣ curEpochOf cfg p ∨ curEpochOf cfg p = p.epochNum))) ∧
    (∀ s, (on_train_epoch_end cfg st p).2.savedCkpt = some s →
      s.1 = pathJoin cfg.ckptDir
        (cfg.modelName ++ "-" ++ toString (curEpochOf cfg p) ++ "_"
          ++ toString p.batchNum ++ ".ckpt") ∧
      s.2.1 = cfg.keepCheckpointMax) ∧
    (∀ s, (on_train_epoch_end cfg st p).2.savedOptim = some s →
      s = pathJoin cfg.ckptDir ("optim_" ++ cfg.modelName ++ ".ckpt")) ∧
    (∀ (fl : List String) (path : String),
      (managerSaveCkpt fl cfg.keepCheckpointMax path).length ≤ cfg.keepCheckpointMax) := by
  have h1 : (savedCkptOf cfg p).isSome = doSaveB cfg p := by
    by_cases h : doSaveB cfg p <;> simp [savedCkptOf, h]
  have h2 : (savedOptimOf cfg p).isSome = doSaveB cfg p := by
    by_cases h : doSaveB cfg p <;> simp [savedOptimOf, h]
  refine ⟨?_, ?_, ?_, ?_, ?_⟩
  · show (savedCkptOf cfg p).isSome = true ↔ _
    rw [h1, doSaveB_iff]
  · show (savedOptimOf cfg p).isSome = true ↔ _
    rw [h2, doSaveB_iff]
  · intro s hs
    have hs' : savedCkptOf cfg p = some s := hs
    unfold savedCkptOf at hs'
    split at hs'
    · cases (Option.some.inj hs').symm
      exact ⟨rfl, rfl⟩
    · cases hs'
  · intro s hs
    have hs' : savedOptimOf cfg p = some s := hs
    unfold savedOptimOf at hs'
    split at hs'
    · exact (Option.some.inj hs').symm
    · cases hs'
  · intro fl path
    exact managerSaveCkpt_length_le fl cfg.keepCheckpointMax path

/-- A concrete single-device configuration used by witnesses. -/
def cfgW : MonitorCfg :=
  { datasetVal := true, valInterval := 2, valStartEpoch := 1, saveBestCkpt := true,
    metricName := ["accuracy"], rankId := 0, deviceNum := 1, modelName := "m",
    ckptDir := "./ckpt", bestCkptName := "best.ckpt", ckptSaveInterval := 1,
    lastEpoch := 0, keepCheckpointMax := 10 }

/-- A concrete epoch input used by witnesses. -/
def pW : CbParams :=
  { curEpochNum := 1, batchNum := 5, epochNum := 10,
    evalLocal := fun _ => 7 / 10, otherRes := [] }

/-- Witness for C3 at a concrete configuration and input. -/
theorem C3_best_ckpt_write_iff_witness :
    (0 ≤ initMonitor.bestRes ∧ cfgW.metricName ≠ []) ∧
      ((((on_train_epoch_end cfgW initMonitor pW).2.savedBest).isSome = true ↔
        (initMonitor.bestRes < ((on_train_epoch_end cfgW initMonitor pW).2.res).getD 0 0 ∧
          cfgW.saveBestCkpt = true ∧ cfgW.rankId = 0)) ∧
      ∀ s, (on_train_epoch_end cfgW initMonitor pW).2.savedBest = some s →
        s = pathJoin cfgW.ckptDir cfgW.bestCkptName) :=
  ⟨⟨by decide, by decide⟩,
   C3_best_ckpt_write_iff cfgW initMonitor pW (by decide) (by decide)⟩

/-- Witness for C4 at a concrete configuration and input. -/
theorem C4_validation_schedule_witness :
    cfgW.valInterval ≠ 0 ∧
      ((cfgW.datasetVal = true →
        ((on_train_epoch_end cfgW initMonitor pW).2.ranValidation = true ↔
          (cfgW.valStartEpoch ≤ curEpochOf cfgW pW ∧
            cfgW.valInterval ∣ (curEpochOf cfgW pW - cfgW.valStartEpoch)))) ∧
      (cfgW.datasetVal = false →
        (on_train_epoch_end cfgW initMonitor pW).2.ranValidation = false) ∧
      ((on_train_epoch_end cfgW initMonitor pW).2.ranValidation = false →
        (on_train_epoch_end cfgW initMonitor pW).2.res =
          List.replicate cfgW.metricName.length 0)) :=
  ⟨by decide, C4_validation_schedule cfgW initMonitor pW (by decide)⟩

/-- Witness for C6 at a concrete configuration and input. -/
theorem C6_ckpt_save_policy_witness :
    (cfgW.metricName ≠ [] ∧ cfgW.ckptSaveInterval ≠ 0) ∧
      ((((on_train_epoch_end cfgW initMonitor pW).2.savedCkpt).isSome = true ↔
        (cfgW.rankId = 0 ∧
          (cfgW.ckptSaveInterval ∣ curEpochOf cfgW pW ∨ curEpochOf cfgW pW = pW.epochNum))) ∧
      (((on_train_epoch_end cfgW initMonitor pW).2.savedOptim).isSome = true ↔
        (cfgW.rankId = 0 ∧
          (cfgW.ckptSaveInterval ∣ curEpochOf cfgW pW ∨ curEpochOf cfgW pW = pW.epochNum))) ∧
      (∀ s, (on_train_epoch_end cfgW initMonitor pW).2.savedCkpt = some s →
        s.1 = pathJoin cfgW.ckptDir
          (cfgW.modelName ++ "-" ++ toString (curEpochOf cfgW pW) ++ "_"
            ++ toString pW.batchNum ++ ".ckpt") ∧
        s.2.1 = cfgW.keepCheckpointMax) ∧
      (∀ s, (on_train_epoch_end cfgW initMonitor pW).2.savedOptim = some s →
        s = pathJoin cfgW.ckptDir ("optim_" ++ cfgW.modelName ++ ".ckpt")) ∧
      (∀ (fl : List String) (path : String),
        (managerSaveCkpt fl cfgW.keepCheckpointMax path).length ≤ cfgW.keepCheckpointMax)) :=
  ⟨⟨by decide, by decide⟩,
   C6_ckpt_save_policy cfgW initMonitor pW (by decide) (by decide)⟩

lemma foldl_zipWith_length (vs : List (List ℚ)) :
    ∀ acc : List ℚ, (∀ v ∈ vs, v.length = acc.length) →
      (vs.foldl (List.zipWith (· + ·)) acc).length = acc.length := by
  induction vs with
  | nil => intro acc _; rfl
  | cons v vs ih =>
    intro acc h
    rw [List.foldl_cons]
    have hz : (List.zipWith (· + ·) acc v).length = acc.length := by
      rw [List.length_zipWith, h v (List.mem_cons_self v vs), min_self]
    rw [ih _ (by rw [hz]; exact fun w hw => h w (List.mem_cons_of_mem v hw)), hz]

lemma foldl_zipWith_getD (vs : List (List ℚ)) :
    ∀ (acc : List ℚ) (i : Nat), (∀ v ∈ vs, v.length = acc.length) → i < acc.length →
      (vs.foldl (List.zipWith (· + ·)) acc).getD i 0 =
        acc.getD i 0 + (vs.map fun v => v.getD i 0).sum := by
  induction vs with
  | nil => intro acc i _ _; simp
  | cons v vs ih =>
    intro acc i h hi
    rw [List.foldl_cons]
    have hv : v.length = acc.length := h v (List.mem_cons_self v vs)
    have hz : (List.zipWith (· + ·) acc v).length = acc.length := by
      rw [List.length_zipWith, hv, min_self]
    have h2 : ∀ w ∈ vs, w.length = (List.zipWith (· + ·) acc v).length := by
      rw [hz]; exact fun w hw => h w (List.mem_cons_of_mem v hw)
    rw [ih _ i h2 (by rw [hz]; exact hi)]
    have hzi : (List.zipWith (· + ·) acc v).getD i 0 = acc.getD i 0 + v.getD i 0 := by
      rw [List.getD_eq_getElem _ _ (by rw [hz]; exact hi),
          List.getD_eq_getElem _ _ hi,
          List.getD_eq_getElem _ _ (by rw [hv]; exact hi), List.getElem_zipWith]
    rw [hzi, List.map_cons, List.sum_cons]
    ring

/-- C5: when `device_num > 1` the recorded metric vector is the element-wise
all-reduce sum over all devices divided by `device_num` (the arithmetic mean
across the `device_num` participating vectors); when `device_num == 1` the
local metric vector is recorded unchanged. -/
theorem C5_metric_mean (cfg : MonitorCfg) (st : Monitor) (p : CbParams)
    (hrun : runValB cfg p = true)
    (hlen : ∀ v ∈ p.otherRes, v.length = cfg.metricName.length) :
    (1 < cfg.deviceNum → p.otherRes.length + 1 = cfg.deviceNum →
      ∀ i, i < cfg.metricName.length →
        ((on_train_epoch_end cfg st p).2.res).getD i 0 =
          ((localRes cfg p :: p.otherRes).map fun v => v.getD i 0).sum /
            (cfg.deviceNum : ℚ)) ∧
    (cfg.deviceNum = 1 → (on_train_epoch_end cfg st p).2.res = localRes cfg p) := by
  have hres : (on_train_epoch_end cfg st p).2.res = resOf cfg p := rfl
  have hloc : (localRes cfg p).length = cfg.metricName.length := by
    simp [localRes]
  constructor
  · intro hdn _ i hi
    rw [hres]
    simp only [resOf, hrun, if_true]
    simp only [reducedRes]
    rw [if_pos hdn]
    have hlen' : ∀ v ∈ p.otherRes, v.length = (localRes cfg p).length := by
      rw [hloc]; exact hlen
    have hflen : (p.otherRes.foldl (List.zipWith (· + ·)) (localRes cfg p)).length =
        (localRes cfg p).length := foldl_zipWith_length _ _ hlen'
    have hi' : i < (localRes cfg p).length := by rw [hloc]; exact hi
    rw [List.getD_eq_getElem _ 0 (by rw [List.length_map, hflen]; exact hi')]
    rw [List.getElem_map]
    rw [← List.getD_eq_getElem _ 0 (by rw [hflen]; exact hi')]
    rw [foldl_zipWith_getD p.otherRes (localRes cfg p) i hlen' hi']
    rw [List.map_cons, List.sum_cons]
  · intro h1
    rw [hres]
    simp only [resOf, hrun, if_true]
    simp only [reducedRes]
    rw [if_neg (by omega)]

/-- A concrete two-device configuration used by the C5 witness. -/
def cfgW2 : MonitorCfg :=
  { datasetVal := true, valInterval := 2, valStartEpoch := 1, saveBestCkpt := true,
    metricName := ["accuracy"], rankId := 0, deviceNum := 2, modelName := "m",
    ckptDir := "./ckpt", bestCkptName := "best.ckpt", ckptSaveInterval := 1,
    lastEpoch := 0, keepCheckpointMax := 10 }

/-- A concrete two-device epoch input used by the C5 witness. -/
def pW2 : CbParams :=
  { curEpochNum := 1, batchNum := 5, epochNum := 10,
    evalLocal := fun _ => 7 / 10, otherRes := [[60]] }

/-- Witness for C5 at a concrete two-device configuration and input. -/
theorem C5_metric_mean_witness :
    (runValB cfgW2 pW2 = true ∧
      ∀ v ∈ pW2.otherRes, v.length = cfgW2.metricName.length) ∧
      ((1 < cfgW2.deviceNum → pW2.otherRes.length + 1 = cfgW2.deviceNum →
        ∀ i, i < cfgW2.metricName.length →
        ((on_train_epoch_end cfgW2 initMonitor pW2).2.res).getD i 0 =
          ((localRes cfgW2 pW2 :: pW2.otherRes).map fun v => v.getD i 0).sum /
            (cfgW2.deviceNum : ℚ)) ∧
      (cfgW2.deviceNum = 1 →
        (on_train_epoch_end cfgW2 initMonitor pW2).2.res = localRes cfgW2 pW2)) :=
  ⟨⟨by decide, by decide⟩,
   C5_metric_mean cfgW2 initMonitor pW2 (by decide) (by decide)⟩

/-! ### Best-result tracking (C2) -/

/-- The update lines 205–207 as a fold step on `(best_res, best_epoch)`:
on a strict improvement the pair becomes `(res[0], cur_epoch)`. -/
def bestStep (be : ℚ × Int) (x : Int × ℚ) : ℚ × Int :=
  if be.1 < x.2 then (x.2, x.1) else be

/-- The `(cur_epoch, res[0])` pairs of the epochs on which validation ran. -/
def observations (cfg : MonitorCfg) (ps : List CbParams) : List (Int × ℚ) :=
  ps.filterMap fun p =>
    if runValB cfg p then some (curEpochOf cfg p, res0Of cfg p) else none

/-- Specification formula (from the claim's words, to be compared with the
code): the maximum of the initial `0` and all observed `res[0]` values. -/
def bestResSpec (obs : List (Int × ℚ)) : ℚ :=
  (obs.map Prod.snd).foldl max 0

/-- Specification formula (from the claim's words, to be compared with the
code): the epoch at which the maximum was first attained, `-1` when no
observation ever exceeded `0`. -/
def bestEpochSpec (obs : List (Int × ℚ)) : Int :=
  if 0 < bestResSpec obs then
    ((obs.find? fun x => decide (x.2 = bestResSpec obs)).map Prod.fst).getD (-1)
  else -1

lemma le_foldl_max (l : List ℚ) (b : ℚ) : b ≤ l.foldl max b := by
  induction l generalizing b with
  | nil => exact le_refl b
  | cons x l ih => exact le_trans (le_max_left b x) (ih (max b x))

lemma mem_le_foldl_max (l : List ℚ) (b : ℚ) : ∀ x ∈ l, x ≤ l.foldl max b := by
  induction l generalizing b with
  | nil => intro x hx; cases hx
  | cons a l ih =>
    intro x hx
    rw [List.foldl_cons]
    rcases List.mem_cons.mp hx with h | h
    · subst h; exact le_trans (le_max_right b x) (le_foldl_max l (max b x))
    · exact ih (max b a) x h

lemma foldl_max_mem (l : List ℚ) (b : ℚ) : l.foldl max b = b ∨ l.foldl max b ∈ l := by
  induction l generalizing b with
  | nil => left; rfl
  | cons a l ih =>
    rw [List.foldl_cons]
    rcases ih (max b a) with h | h
    · rcases max_choice b a with hm | hm
      · left; rw [h, hm]
      · right; rw [h, hm]; exact List.mem_cons_self a l
    · right; exact List.mem_cons_of_mem a h

lemma bestResSpec_nonneg (obs : List (Int × ℚ)) : 0 ≤ bestResSpec obs :=
  le_foldl_max _ 0

lemma bestResSpec_append (obs : List (Int × ℚ)) (x : Int × ℚ) :
    bestResSpec (obs ++ [x]) = max (bestResSpec obs) x.2 := by
  simp [bestResSpec, List.map_append, List.foldl_append]

lemma bestFold_eq (obs : List (Int × ℚ)) :
    obs.foldl bestStep (0, -1) = (bestResSpec obs, bestEpochSpec obs) := by
  induction obs using List.reverseRecOn with
  | nil => simp [bestResSpec, bestEpochSpec]
  | append_singleton obs x ih =>
    rw [List.foldl_append, ih, List.foldl_cons, List.foldl_nil]
    have hM : 0 ≤ bestResSpec obs := bestResSpec_nonneg obs
    by_cases hlt : bestResSpec obs < x.2
    · have hmax : bestResSpec (obs ++ [x]) = x.2 := by
        rw [bestResSpec_append, max_eq_right (le_of_lt hlt)]
      have hposx : 0 < x.2 := lt_of_le_of_lt hM hlt
      have hnone : obs.find? (fun y => decide (y.2 = x.2)) = none := by
        rw [List.find?_eq_none]
        intro y hy
        simp only [decide_eq_true_eq]
        intro hEq
        have hle : y.2 ≤ bestResSpec obs :=
          mem_le_foldl_max _ 0 y.2 (List.mem_map_of_mem Prod.snd hy)
        exact absurd (hEq ▸ hle) (not_le.mpr hlt)
      have hx2 : ([x].find? fun y => decide (y.2 = x.2)) = some x := by
        simp [List.find?]
      rw [bestStep, if_pos hlt]
      simp only [bestEpochSpec, hmax, if_pos hposx, List.find?_append, hnone, hx2,
        Option.map_some', Option.getD_some]
      rfl
    · have hle : x.2 ≤ bestResSpec obs := not_lt.mp hlt
      have hmax : bestResSpec (obs ++ [x]) = bestResSpec obs := by
        rw [bestResSpec_append, max_eq_left hle]
      rw [bestStep, if_neg hlt]
      refine Prod.ext hmax.symm ?_
      show bestEpochSpec obs = bestEpochSpec (obs ++ [x])
      by_cases hpos : 0 < bestResSpec obs
      · have hsome : (obs.find? fun y => decide (y.2 = bestResSpec obs)).isSome = true := by
          rw [List.find?_isSome]
          rcases foldl_max_mem (obs.map Prod.snd) 0 with h | h
          · have hz : bestResSpec obs = 0 := h
            exact absurd (hz ▸ hpos) (lt_irrefl 0)
          · obtain ⟨y, hy, hy2⟩ := List.mem_map.mp h
            exact ⟨y, hy, by simp only [decide_eq_true_eq]; exact hy2⟩
        obtain ⟨r, hr⟩ := Option.isSome_iff_exists.mp hsome
        have hposx : 0 < bestResSpec (obs ++ [x]) := by rw [hmax]; exact hpos
        simp only [bestEpochSpec, if_pos hpos, if_pos hposx, List.find?_append, hmax, hr]
        rfl
      · have hposx : ¬0 < bestResSpec (obs ++ [x]) := by rw [hmax]; exact hpos
        simp only [bestEpochSpec, if_neg hpos, if_neg hposx]

lemma stepMonitor_pair_run (cfg : MonitorCfg) (st : Monitor) (p : CbParams)
    (h0 : cfg.rankId = 0) (hrv : runValB cfg p = true) :
    ((stepMonitor cfg st p).bestRes, (stepMonitor cfg st p).bestEpoch) =
      bestStep (st.bestRes, st.bestEpoch) (curEpochOf cfg p, res0Of cfg p) := by
  by_cases hlt : st.bestRes < res0Of cfg p
  · simp [stepMonitor, isBestB, hrv, h0, hlt, bestStep]
  · simp [stepMonitor, isBestB, hrv, h0, hlt, bestStep]

lemma stepMonitor_skip (cfg : MonitorCfg) (st : Monitor) (p : CbParams)
    (hrv : runValB cfg p = false) : stepMonitor cfg st p = st := by
  simp [stepMonitor, isBestB, hrv]

lemma runEpochs_best (cfg : MonitorCfg) (h0 : cfg.rankId = 0) :
    ∀ (ps : List CbParams) (st : Monitor),
      ((runEpochs cfg st ps).bestRes, (runEpochs cfg st ps).bestEpoch) =
        (observations cfg ps).foldl bestStep (st.bestRes, st.bestEpoch) := by
  intro ps
  induction ps with
  | nil => intro st; rfl
  | cons p ps ih =>
    intro st
    have hstep : runEpochs cfg st (p :: ps) = runEpochs cfg (stepMonitor cfg st p) ps := rfl
    by_cases hrv : runValB cfg p
    · have hobs : observations cfg (p :: ps) =
          (curEpochOf cfg p, res0Of cfg p) :: observations cfg ps := by
        simp [observations, hrv]
      rw [hstep, hobs, List.foldl_cons, ih (stepMonitor cfg st p),
        stepMonitor_pair_run cfg st p h0 hrv]
    · have hrv' : runValB cfg p = false := by simpa using hrv
      have hobs : observations cfg (p :: ps) = observations cfg ps := by
        simp [observations, hrv']
      rw [hstep, hobs, stepMonitor_skip cfg st p hrv', ih st]

/-- C2: on rank 0, `best_res` never decreases, and after any sequence of
epoch ends it equals the maximum of its initial `0` and all observed
validation `res[0]` values, while `best_epoch` is the epoch at which that
maximum was first attained (`-1` when no observation exceeded `0`);
updates happen only on strict improvement. -/
theorem C2_best_tracking (cfg : MonitorCfg) (h0 : cfg.rankId = 0)
    (hm : cfg.metricName ≠ []) :
    (∀ (st : Monitor) (p : CbParams),
      st.bestRes ≤ ((on_train_epoch_end cfg st p).1).bestRes) ∧
    (∀ (st : Monitor) (p : CbParams),
      ¬ st.bestRes < res0Of cfg p → (on_train_epoch_end cfg st p).1 = st) ∧
    (∀ ps : List CbParams,
      (runEpochs cfg initMonitor ps).bestRes = bestResSpec (observations cfg ps) ∧
      (runEpochs cfg initMonitor ps).bestEpoch = bestEpochSpec (observations cfg ps)) := by
  refine ⟨?_, ?_, ?_⟩
  · intro st p
    show st.bestRes ≤ (stepMonitor cfg st p).bestRes
    unfold stepMonitor
    split
    · rename_i hbest
      simp only [isBestB, Bool.and_eq_true, decide_eq_true_eq] at hbest
      exact le_of_lt hbest.2
    · exact le_refl _
  · intro st p hlt
    show stepMonitor cfg st p = st
    simp [stepMonitor, isBestB, hlt]
  · intro ps
    have h := runEpochs_best cfg h0 ps initMonitor
    have h2 : (observations cfg ps).foldl bestStep (initMonitor.bestRes, initMonitor.bestEpoch) =
        (bestResSpec (observations cfg ps), bestEpochSpec (observations cfg ps)) :=
      bestFold_eq (observations cfg ps)
    rw [h2] at h
    exact ⟨congrArg Prod.fst h, congrArg Prod.snd h⟩

/-- Witness for C2 at the concrete rank-0 configuration. -/
theorem C2_best_tracking_witness :
    (cfgW.rankId = 0 ∧ cfgW.metricName ≠ []) ∧
      ((∀ (st : Monitor) (p : CbParams),
        st.bestRes ≤ ((on_train_epoch_end cfgW st p).1).bestRes) ∧
      (∀ (st : Monitor) (p : CbParams),
        ¬ st.bestRes < res0Of cfgW p → (on_train_epoch_end cfgW st p).1 = st) ∧
      (∀ ps : List CbParams,
        (runEpochs cfgW initMonitor ps).bestRes = bestResSpec (observations cfgW ps) ∧
        (runEpochs cfgW initMonitor ps).bestEpoch = bestEpochSpec (observations cfgW ps))) :=
  ⟨⟨rfl, by decide⟩, C2_best_tracking cfgW rfl (by decide)⟩

/-- C10: `_get_loss` returns `None` exactly when `net_outputs` is `None`,
an empty `list`/`tuple`, or of an unidentified type; in the remaining
cases (with the selected loss being an `int`/`float`/`Tensor`, as the
training loop produces) it returns a scalar `Tensor` equal to the mean of
the loss — `net_outputs` itself, or its first element for a non-empty
`list`/`tuple`. -/
theorem C10_get_loss_cases (output : PyVal)
    (hhead : ∀ (x : PyVal) (xs : List PyVal),
      (output = .pylist (x :: xs) ∨ output = .pytuple (x :: xs)) →
        (toTensorData x).isSome = true) :
    (get_loss output = .ok none ↔
      (output = .pynone ∨ output = .pylist [] ∨ output = .pytuple [] ∨
        output = .pyother)) ∧
    (¬(output = .pynone ∨ output = .pylist [] ∨ output = .pytuple [] ∨
        output = .pyother) →
      ∃ loss d, lossSelect output = some loss ∧ toTensorData loss = some d ∧
        get_loss output = .ok (some (npMean d))) := by
  cases output with
  | pynone => exact ⟨by simp [get_loss], fun h => absurd (Or.inl rfl) h⟩
  | pyint n =>
      refine ⟨by simp [get_loss, lossSelect, toTensorData], fun _ => ?_⟩
      exact ⟨.pyint n, [(n : ℚ)], rfl, rfl, rfl⟩
  | pyfloat q =>
      refine ⟨by simp [get_loss, lossSelect, toTensorData], fun _ => ?_⟩
      exact ⟨.pyfloat q, [q], rfl, rfl, rfl⟩
  | pytensor d =>
      refine ⟨by simp [get_loss, lossSelect, toTensorData], fun _ => ?_⟩
      exact ⟨.pytensor d, d, rfl, rfl, rfl⟩
  | pyother => exact ⟨by simp [get_loss, lossSelect], fun h => absurd (by simp) h⟩
  | pylist xs =>
      cases xs with
      | nil => exact ⟨by simp [get_loss, lossSelect], fun h => absurd (by simp) h⟩
      | cons x t =>
          obtain ⟨d, hd⟩ :=
            Option.isSome_iff_exists.mp (hhead x t (Or.inl rfl))
          have hgl : get_loss (.pylist (x :: t)) = .ok (some (npMean d)) := by
            simp [get_loss, lossSelect, hd]
          refine ⟨⟨fun h => ?_, fun h => ?_⟩, fun _ => ⟨x, d, rfl, hd, hgl⟩⟩
          · rw [hgl] at h; cases h
          · simp at h
  | pytuple xs =>
      cases xs with
      | nil => exact ⟨by simp [get_loss, lossSelect], fun h => absurd (by simp) h⟩
      | cons x t =>
          obtain ⟨d, hd⟩ :=
            Option.isSome_iff_exists.mp (hhead x t (Or.inr rfl))
          have hgl : get_loss (.pytuple (x :: t)) = .ok (some (npMean d)) := by
            simp [get_loss, lossSelect, hd]
          refine ⟨⟨fun h => ?_, fun h => ?_⟩, fun _ => ⟨x, d, rfl, hd, hgl⟩⟩
          · rw [hgl] at h; cases h
          · simp at h

/-- Witness for C10 at a concrete non-empty tuple output. -/
theorem C10_get_loss_cases_witness :
    (∀ (x : PyVal) (xs : List PyVal),
      ((PyVal.pytuple [.pyfloat 2, .pyother]) = .pylist (x :: xs) ∨
        (PyVal.pytuple [.pyfloat 2, .pyother]) = .pytuple (x :: xs)) →
        (toTensorData x).isSome = true) ∧
    ((get_loss (.pytuple [.pyfloat 2, .pyother]) = .ok none ↔
      ((PyVal.pytuple [.pyfloat 2, .pyother]) = .pynone ∨
        (PyVal.pytuple [.pyfloat 2, .pyother]) = .pylist [] ∨
        (PyVal.pytuple [.pyfloat 2, .pyother]) = .pytuple [] ∨
        (PyVal.pytuple [.pyfloat 2, .pyother]) = .pyother)) ∧
    (¬((PyVal.pytuple [.pyfloat 2, .pyother]) = .pynone ∨
        (PyVal.pytuple [.pyfloat 2, .pyother]) = .pylist [] ∨
        (PyVal.pytuple [.pyfloat 2, .pyother]) = .pytuple [] ∨
        (PyVal.pytuple [.pyfloat 2, .pyother]) = .pyother) →
      ∃ loss d, lossSelect (.pytuple [.pyfloat 2, .pyother]) = some loss ∧
        toTensorData loss = some d ∧
        get_loss (.pytuple [.pyfloat 2, .pyother]) = .ok (some (npMean d)))) :=
  ⟨by
    rintro x xs (h | h)
    · cases h
    · injection h with he
      injection he with h1 h2
      rw [← h1]
      rfl,
   C10_get_loss_cases (.pytuple [.pyfloat 2, .pyother]) (by
    rintro x xs (h | h)
    · cases h
    · injection h with he
      injection he with h1 h2
      rw [← h1]
      rfl)⟩
